import Mathlib

/-!
Verification development for the PsycheOS webcam-effect application
(`src/app.js`).  The JavaScript source is shallowly embedded below:

* pixel data (`ImageData` / `Uint8ClampedArray`) becomes a `PixelBuffer`
  over lists of `RGBA` records of natural numbers, with JavaScript's
  clamped-byte store (`ToUint8Clamp`: clamp to [0,255], round half to
  even) modelled by `uint8Clamp` over exact rationals;
* the per-pixel effect kernels (`applyTricksterEffect`,
  `applyPersonaEffect`'s inversion loop, `applyAnimaEffect`) are
  translated loop-for-loop;
* canvas compositing primitives used by the gradient/glitch effects
  (`fillRect` with a gradient, `drawImage`, `globalCompositeOperation`)
  are modelled as per-pixel source-over / lighter blends; the browser's
  rasterisation of a gradient or of a resampled sub-image is not
  repository code, so it enters as an explicit paint-function parameter;
* the selector (`applyFilter`, `randomFilterSlotMachine`), the canvas
  context transform discipline (`renderLoop`, `takeScreenshot`) and the
  recorder (`startRecording`, `stopRecording`) become explicit state
  passing, with `Math.random` draws passed in as parameters.
-/

namespace PsycheOS

/-- One RGBA pixel as stored in a `Uint8ClampedArray`: four byte-valued
channels.  Channels are naturals; well-formedness (`RGBA.Valid`) bounds
them by 255. -/
structure RGBA where
  r : ℕ
  g : ℕ
  b : ℕ
  a : ℕ
deriving DecidableEq

/-- All four channels are byte values. -/
def RGBA.Valid (p : RGBA) : Prop :=
  p.r ≤ 255 ∧ p.g ≤ 255 ∧ p.b ≤ 255 ∧ p.a ≤ 255

instance (p : RGBA) : Decidable p.Valid := by
  unfold RGBA.Valid; infer_instance

/-- The transparent-black pixel (also the default used for out-of-range
list reads). -/
def px0 : RGBA := ⟨0, 0, 0, 0⟩

/-- A rectangular RGBA raster: the model of the canvas backing store /
`ImageData`.  `data` is stored row-major, pixel `(x, y)` at index
`x + y * width`, matching the flat `Uint8ClampedArray` of the source. -/
structure PixelBuffer where
  width : ℕ
  height : ℕ
  data : List RGBA
deriving DecidableEq

/-- Well-formed buffer: `width*height` pixels, all byte-valued. -/
def PixelBuffer.WF (buf : PixelBuffer) : Prop :=
  buf.data.length = buf.width * buf.height ∧ ∀ p ∈ buf.data, p.Valid

instance (buf : PixelBuffer) : Decidable buf.WF := by
  unfold PixelBuffer.WF; infer_instance

/-- Round half to even, the rounding mode of JavaScript's
`ToUint8Clamp` conversion used by `Uint8ClampedArray` stores. -/
def roundTiesEven (q : ℚ) : ℤ :=
  if q - ⌊q⌋ < 1/2 then ⌊q⌋
  else if (1 : ℚ)/2 < q - ⌊q⌋ then ⌊q⌋ + 1
  else if Even ⌊q⌋ then ⌊q⌋ else ⌊q⌋ + 1

/-- JavaScript `ToUint8Clamp`: clamp to `[0,255]`, otherwise round half
to even.  Every store into pixel data in the source goes through this
conversion. -/
def uint8Clamp (q : ℚ) : ℕ :=
  if q ≤ 0 then 0
  else if 255 ≤ q then 255
  else (roundTiesEven q).toNat

/-- Luma as computed in `applyAnimaEffect` and `applyTricksterEffect`:
`data[i]*0.299 + data[i+1]*0.587 + data[i+2]*0.114`. -/
def lumaQ (p : RGBA) : ℚ :=
  (p.r : ℚ) * 0.299 + (p.g : ℚ) * 0.587 + (p.b : ℚ) * 0.114

/-- Per-pixel body of `applyTricksterEffect`: luma at most the shadow
threshold 55 is crushed to black, anything brighter maps to
`luminance * 1.8` on the red channel only; alpha is not written. -/
def tricksterPixel (p : RGBA) : RGBA :=
  if lumaQ p ≤ 55 then ⟨0, 0, 0, p.a⟩
  else ⟨uint8Clamp (lumaQ p * 1.8), 0, 0, p.a⟩

/-- `applyTricksterEffect`: the single in-place pass over `ImageData`
with stride 4. -/
def applyTricksterEffect (buf : PixelBuffer) : PixelBuffer :=
  { buf with data := buf.data.map tricksterPixel }

/-- Per-pixel body of the inversion loop in `applyPersonaEffect`:
`data[i] = 255 - data[i]` for R, G, B; alpha is not written. -/
def invertPixel (p : RGBA) : RGBA :=
  ⟨255 - p.r, 255 - p.g, 255 - p.b, p.a⟩

/-- The negative-inversion stage of `applyPersonaEffect` (the
`getImageData` / invert-loop / `putImageData` block, before the vignette
is composited on top). -/
def personaInvert (buf : PixelBuffer) : PixelBuffer :=
  { buf with data := buf.data.map invertPixel }

/-- The grayscale pass of `applyAnimaEffect`: luma of every pixel stored
into a `Uint8ClampedArray` (hence clamped and rounded). -/
def animaGray (buf : PixelBuffer) : List ℕ :=
  buf.data.map fun p => uint8Clamp (lumaQ p)

/-- Output pixel of `applyAnimaEffect` at flat index `i`.  The source
iterates `y` over `1..height-2` and `x` over `1..width-2` writing into a
freshly created (zero-initialised) `ImageData`; here the interior test
is expressed on `i % w` and `i / w`, which for `i = x + y*w` are exactly
the source's `x` and `y`.  Non-interior indices keep the
`createImageData` value, transparent black. -/
def animaPixel (gray : List ℕ) (w h i : ℕ) : RGBA :=
  if 1 ≤ i % w ∧ i % w + 1 < w ∧ 1 ≤ i / w ∧ i / w + 1 < h then
    (if 20 < |4 * (gray.getD i 0 : ℤ) - gray.getD (i - 1) 0 - gray.getD (i + 1) 0
          - gray.getD (i - w) 0 - gray.getD (i + w) 0| then
      ⟨255, 255, 255, 255⟩
    else ⟨20, 20, 20, 255⟩)
  else px0

/-- `applyAnimaEffect`: grayscale pass, Laplacian edge detection over
the interior, `putImageData` of the fresh output buffer (so the border
rows/columns are whatever `createImageData` initialised them to). -/
def applyAnimaEffect (buf : PixelBuffer) : PixelBuffer :=
  { width := buf.width, height := buf.height,
    data := (List.range (buf.width * buf.height)).map
      (animaPixel (animaGray buf) buf.width buf.height) }

/-- The Laplacian value `4*center - left - right - top - bottom` that
`applyAnimaEffect` computes on the (clamped, rounded) luma grid at pixel
`(x, y)`. -/
def animaLap (buf : PixelBuffer) (x y : ℕ) : ℤ :=
  4 * (animaGray buf |>.getD (x + y * buf.width) 0 : ℤ)
    - (animaGray buf |>.getD (x + y * buf.width - 1) 0)
    - (animaGray buf |>.getD (x + y * buf.width + 1) 0)
    - (animaGray buf |>.getD (x + y * buf.width - buf.width) 0)
    - (animaGray buf |>.getD (x + y * buf.width + buf.width) 0)

/-- A non-premultiplied source colour delivered to the compositor for
one destination pixel: channels in `[0,255]`, alpha in `[0,1]`.  The
browser rasterises `createRadialGradient` fills and `drawImage` sources
into such colours; that rasterisation is platform code, so effects that
use it take the rasterised paint as a function parameter. -/
structure Paint where
  pr : ℚ
  pg : ℚ
  pb : ℚ
  pa : ℚ
deriving DecidableEq

/-- The two values of `globalCompositeOperation` the source uses:
`source-over` (default) and `lighter` (additive, the RGB-split
glitch). -/
inductive BlendMode where
  | sourceOver
  | lighter
deriving DecidableEq

/-- Canvas compositing of a source colour onto a destination byte pixel,
followed by the clamped byte store of the backing bitmap.  Source-over
uses the standard non-premultiplied Porter-Duff formula; lighter adds
the premultiplied components with the alpha clamped at 1. -/
def compOp (m : BlendMode) (s : Paint) (d : RGBA) : RGBA :=
  let da : ℚ := (d.a : ℚ) / 255
  match m with
  | .sourceOver =>
      let ao : ℚ := s.pa + da * (1 - s.pa)
      let ch : ℚ → ℕ → ℕ := fun sc dc =>
        if ao = 0 then 0
        else uint8Clamp ((sc * s.pa + (dc : ℚ) * da * (1 - s.pa)) / ao)
      ⟨ch s.pr d.r, ch s.pg d.g, ch s.pb d.b, uint8Clamp (ao * 255)⟩
  | .lighter =>
      let ao : ℚ := min 1 (s.pa + da)
      let ch : ℚ → ℕ → ℕ := fun sc dc =>
        if ao = 0 then 0
        else uint8Clamp ((sc * s.pa + (dc : ℚ) * da) / ao)
      ⟨ch s.pr d.r, ch s.pg d.g, ch s.pb d.b, uint8Clamp (ao * 255)⟩

/-- Map over a list with the flat pixel index threaded through. -/
def mapIdxP (f : ℕ → RGBA → RGBA) : ℕ → List RGBA → List RGBA
  | _, [] => []
  | i, p :: rest => f i p :: mapIdxP f (i + 1) rest

/-- One compositing pass over the buffer: pixels inside the rasterised
region `inR` receive the paint `src` blended with mode `m`; pixels
outside are untouched.  `fillRect(0,0,w,h)` is the special case of the
everywhere-true region. -/
def blendRegion (m : BlendMode) (inR : ℕ → ℕ → Bool) (src : ℕ → ℕ → Paint)
    (buf : PixelBuffer) : PixelBuffer :=
  { buf with
    data := mapIdxP
      (fun i p =>
        if inR (i % buf.width) (i / buf.width) then
          compOp m (src (i % buf.width) (i / buf.width)) p
        else p)
      0 buf.data }

/-- The everywhere-true region of a full-canvas `fillRect` or a
full-canvas `drawImage`. -/
def fullRegion : ℕ → ℕ → Bool := fun _ _ => true

/-- `applySelfEffect`: one `fillRect` of the warm radial gradient
(stops `rgba(255,220,150,0)` to `rgba(255,220,150,0.15)`); `grad` is the
browser-rasterised gradient paint. -/
def applySelfEffect (grad : ℕ → ℕ → Paint) (buf : PixelBuffer) : PixelBuffer :=
  blendRegion .sourceOver fullRegion grad buf

/-- `applyPersonaEffect`: the inversion loop, then one `fillRect` of the
mask vignette gradient (stops `rgba(255,255,255,0.05)` to
`rgba(0,0,0,0.15)`) composited on top. -/
def applyPersonaEffect (grad : ℕ → ℕ → Paint) (buf : PixelBuffer) : PixelBuffer :=
  blendRegion .sourceOver fullRegion grad (personaInvert buf)

/-- `applyShadowEffect`: dark vignette `fillRect` (stops
`rgba(0,0,0,0)` to `rgba(0,0,0,0.85)`), then, when the per-frame random
draw exceeds 0.85, two horizontal slice self-copies (`drawImage` of a
strip of the canvas at a horizontal offset, source-over), then, when a
second draw exceeds 0.95, two full-canvas self-redraws in `lighter`
mode at opposing offsets.  Strip extents, offsets and the resampled
source colours are browser rasterisation, passed as region/paint
parameters; the pass order and blend modes are the source's. -/
def applyShadowEffect (vign : ℕ → ℕ → Paint)
    (sliceOn : Bool) (r1 r2 : ℕ → ℕ → Bool) (s1 s2 : ℕ → ℕ → Paint)
    (splitOn : Bool) (t1 t2 : ℕ → ℕ → Paint)
    (buf : PixelBuffer) : PixelBuffer :=
  let b1 := blendRegion .sourceOver fullRegion vign buf
  let b2 := if sliceOn then blendRegion .sourceOver r2 s2 (blendRegion .sourceOver r1 s1 b1) else b1
  if splitOn then
    blendRegion .lighter fullRegion t2 (blendRegion .lighter fullRegion t1 b2)
  else b2

/-- One entry of the `archetypes` array: the five-entry effect
catalog. -/
structure Archetype where
  id : String
  name : String
  symbol : String
  description : String
deriving DecidableEq

/-- The `archetypes` array of the source, in order. -/
def archetypes : List Archetype := [
  ⟨"self", "The Self", "fa-solid fa-circle-dot",
    "The unified whole of the conscious and unconscious. Wholeness, integration, and the center of the total personality."⟩,
  ⟨"persona", "The Persona", "fa-solid fa-theater-masks",
    "The social mask or facade you present to the world. It conceals your true self."⟩,
  ⟨"shadow", "The Shadow", "fa-solid fa-square-full",
    "The unknown, dark side of the personality. The repressed, instinctive, and inferior parts of the psyche."⟩,
  ⟨"anima", "The Anima/Animus", "fa-solid fa-moon",
    "The inner, unconscious feminine side in men (Anima) or masculine side in women (Animus). Represents intuition and soul."⟩,
  ⟨"trickster", "The Trickster", "fa-solid fa-wand-magic-sparkles",
    "The archetype of chaos, disruption, and challenging norms. It exposes hypocrisy and creates new possibilities."⟩]

/-- Catalog entry at a valid index. -/
def archAt (k : Fin archetypes.length) : Archetype := archetypes.get k

/-- JavaScript runtime error raised by the selector code path: reading a
property of `undefined`. -/
inductive JSError where
  | typeError
deriving DecidableEq

/-- Selector-side mutable state: the `currentFilter` variable (an
archetype object, or `undefined` when a failed lookup was stored), the
canvas CSS class, the description box, the active-button marker, and the
control locks used during a spin. -/
structure SelectorState where
  currentFilter : Option Archetype
  canvasClass : String
  descriptionHTML : String
  descriptionVisible : Bool
  activeFilterId : Option String
  randomBtnDisabled : Bool
  pointerEventsLocked : Bool
deriving DecidableEq

/-- `applyFilter(filterId)`.  The source first stores
`archetypes.find(a => a.id === filterId)` into `currentFilter` and only
then dereferences `currentFilter.id`; for an id not in the catalog the
stored value is `undefined` and the dereference throws a `TypeError`,
leaving the rest of the function unexecuted.  Returned: the state as
left behind, and the error if one was thrown. -/
def applyFilter (filterId : String) (st : SelectorState) :
    SelectorState × Option JSError :=
  match archetypes.find? (fun a => a.id == filterId) with
  | some a =>
      ({ st with
          currentFilter := some a,
          canvasClass := a.id,
          descriptionHTML := "<h3>" ++ a.name ++ "</h3><p>" ++ a.description ++ "</p>",
          descriptionVisible := true,
          activeFilterId := some filterId }, none)
  | none =>
      ({ st with currentFilter := none }, some .typeError)

/-- The selector state right after `init()`: `currentFilter` starts as
`archetypes[0]`. -/
def initSelectorState : SelectorState :=
  { currentFilter := some (archetypes.getD 0 ⟨"", "", "", ""⟩),
    canvasClass := "",
    descriptionHTML := "",
    descriptionVisible := false,
    activeFilterId := none,
    randomBtnDisabled := false,
    pointerEventsLocked := false }

/-- One non-final tick of `randomFilterSlotMachine`: a random catalog
entry is applied visually only (canvas class and button highlight);
`currentFilter` is not written. -/
def spinTickVisual (k : Fin archetypes.length) (st : SelectorState) : SelectorState :=
  { st with canvasClass := (archAt k).id, activeFilterId := some (archAt k).id }

/-- Folding the visual ticks of a spin over the state. -/
def runSpinTicks (ds : List (Fin archetypes.length)) (st : SelectorState) : SelectorState :=
  ds.foldl (fun s d => spinTickVisual d s) st

/-- Control lockout at the start of `randomFilterSlotMachine`
(`randomBtn.disabled = true`, `filterList.style.pointerEvents = 'none'`). -/
def lockControls (st : SelectorState) : SelectorState :=
  { st with randomBtnDisabled := true, pointerEventsLocked := true }

/-- Exit condition of the final do-while draw: the drawn entry's id
differs from `currentFilter.id` at final-tick time. -/
def spinPred (st : SelectorState) (s : ℕ → Fin archetypes.length) (n : ℕ) : Prop :=
  some (archAt (s n)).id ≠ st.currentFilter.map (fun a => a.id)

instance spinPredDecidable (st : SelectorState) (s : ℕ → Fin archetypes.length) :
    DecidablePred (spinPred st s) := fun _ => by
  unfold spinPred; infer_instance

/-- `randomFilterSlotMachine`.  `ds` are the random draws of the visual
ticks, `s` the stream of draws consumed by the final reject-and-resample
do-while loop, and `h` the termination evidence for that loop (some draw
in the stream differs from the current id; the source loops forever
otherwise).  The loop takes the first such draw; the winner goes through
`applyFilter`, then the controls are re-enabled. -/
def randomFilterSlotMachine (ds : List (Fin archetypes.length))
    (s : ℕ → Fin archetypes.length) (st : SelectorState)
    (h : ∃ n, spinPred (runSpinTicks ds (lockControls st)) s n) :
    SelectorState × Option JSError :=
  let st1 := runSpinTicks ds (lockControls st)
  let finalArch := archAt (s (Nat.find h))
  let r := applyFilter finalArch.id st1
  ({ r.1 with randomBtnDisabled := false, pointerEventsLocked := false }, r.2)

/-- `MediaRecorder.state` values relevant to the source. -/
inductive MRecState where
  | inactive
  | recording
deriving DecidableEq

/-- The `mediaRecorder` object: negotiated MIME type and its state. -/
structure MediaRec where
  mimeType : String
  mstate : MRecState
deriving DecidableEq

/-- Recorder-side mutable state: the `isRecording` flag, the
`recordedChunks` array (chunks as abstract byte-segment ids), the
`mediaRecorder` variable, the UI flags toggled by
`startRecording`/`stopRecording`, and the deliverable handed to the
download link by `handleRecordingStop` (chunk list plus file
extension). -/
structure RecordingState where
  isRecording : Bool
  recordedChunks : List ℕ
  mediaRecorder : Option MediaRec
  recordBtnRecordingClass : Bool
  recordBtnDisabled : Bool
  screenshotBtnDisabled : Bool
  randomBtnDisabledR : Bool
  pointerEventsLockedR : Bool
  delivered : Option (List ℕ × String)
deriving DecidableEq

/-- The `mimeTypes` preference list probed by `startRecording`, in
source order: H.264 MP4 first, then VP9 WebM, VP8 WebM, generic WebM. -/
def mimeTypes : List String := [
  "video/mp4; codecs=\"avc1.42E01E\"",
  "video/webm; codecs=vp9",
  "video/webm; codecs=vp8",
  "video/webm"]

/-- Outcome of a `startRecording` call, distinguishing the three exit
paths of the source: the `if (isRecording) return` guard, the
no-supported-MIME-type bailout, and a successful `mediaRecorder.start()`
with the negotiated type. -/
inductive StartOutcome where
  | alreadyRecording
  | noSupportedProfile
  | started (mimeType : String)
deriving DecidableEq

/-- `stopRecording()`: stop the recorder if it is currently recording,
then reset every UI flag and clear `isRecording`. -/
def stopRecording (st : RecordingState) : RecordingState :=
  let st1 :=
    match st.mediaRecorder with
    | some r =>
        if r.mstate = MRecState.recording then
          { st with mediaRecorder := some { r with mstate := MRecState.inactive } }
        else st
    | none => st
  { st1 with
      isRecording := false,
      recordBtnRecordingClass := false,
      recordBtnDisabled := false,
      screenshotBtnDisabled := false,
      randomBtnDisabledR := false,
      pointerEventsLockedR := false }

/-- `startRecording()`, with the platform's
`MediaRecorder.isTypeSupported` passed in as the `supports` predicate.
Busy guard first; otherwise chunks are reset, controls locked, the
first supported MIME type selected by `mimeTypes.find(...)`; with no
supported type the source alerts and calls `stopRecording()` to reset
the UI, producing nothing; otherwise a recorder is created and
started. -/
def startRecording (supports : String → Bool) (st : RecordingState) :
    RecordingState × StartOutcome :=
  if st.isRecording then (st, .alreadyRecording)
  else
    let st1 := { st with
      isRecording := true,
      recordedChunks := [],
      recordBtnRecordingClass := true,
      recordBtnDisabled := true,
      screenshotBtnDisabled := true,
      randomBtnDisabledR := true,
      pointerEventsLockedR := true }
    match mimeTypes.find? supports with
    | none => (stopRecording st1, .noSupportedProfile)
    | some m =>
        ({ st1 with mediaRecorder := some ⟨m, MRecState.recording⟩ }, .started m)

/-- `handleRecordingStop()`: concatenated chunks become the deliverable,
tagged `mp4` for an MP4 profile and `webm` otherwise. -/
def handleRecordingStop (st : RecordingState) : RecordingState :=
  let mt := (st.mediaRecorder.map fun r => r.mimeType).getD ""
  { st with
      delivered := some (st.recordedChunks,
        if mt.startsWith "video/mp4" then "mp4" else "webm") }

/-- `mediaRecorder.ondataavailable`: a non-empty encoded segment
(modelled by its size) is appended to `recordedChunks`. -/
def dataAvailable (size : ℕ) (st : RecordingState) : RecordingState :=
  if 0 < size then { st with recordedChunks := st.recordedChunks ++ [size] }
  else st

/-- What the display canvas currently shows, tracked by provenance: the
cleared state, a bare video frame drawn under some mirror orientation,
or a frame with the current effect's overlay applied. -/
inductive Bitmap where
  | blank
  | frame (mirrored : Bool)
  | styled (mirrored : Bool) (effectId : String)
deriving DecidableEq

/-- The 2D context: the mirror component of the current transform, the
`save()` stack of transform states, the displayed bitmap, and the
`ctx.filter` property. -/
structure Ctx where
  mirrored : Bool
  saveStack : List Bool
  bitmap : Bitmap
  filterStr : String
deriving DecidableEq

/-- `ctx.save()`. -/
def ctxSave (c : Ctx) : Ctx := { c with saveStack := c.mirrored :: c.saveStack }

/-- `ctx.restore()` (no-op on an empty stack, as in canvas). -/
def ctxRestore (c : Ctx) : Ctx :=
  match c.saveStack with
  | [] => c
  | t :: rest => { c with mirrored := t, saveStack := rest }

/-- The `translate(width,0); scale(-1,1)` pair: compose a horizontal
flip onto the current transform (tracked as a parity). -/
def ctxMirror (c : Ctx) : Ctx := { c with mirrored := !c.mirrored }

/-- `ctx.clearRect(0,0,width,height)`. -/
def ctxClear (c : Ctx) : Ctx := { c with bitmap := Bitmap.blank }

/-- `applyDynamicFilter`: the pre-draw step, which only resets
`ctx.filter` to `'none'`. -/
def applyDynamicFilter (c : Ctx) : Ctx := { c with filterStr := "none" }

/-- `ctx.drawImage(video, 0, 0, width, height)`: the frame lands under
the orientation of the current transform. -/
def ctxDrawVideo (c : Ctx) : Ctx := { c with bitmap := Bitmap.frame c.mirrored }

/-- `applyOverlayFilter(filterId)` at the context level: the displayed
bitmap becomes the styled frame, still under the current orientation. -/
def ctxOverlay (effectId : String) (c : Ctx) : Ctx :=
  { c with bitmap := Bitmap.styled c.mirrored effectId }

/-- One body of `renderLoop` (the `videoReady` guard, then save, mirror,
clear, pre-draw reset, video draw, overlay, restore). -/
def renderTick (videoReady : Bool) (effectId : String) (c : Ctx) : Ctx :=
  if videoReady then
    ctxRestore (ctxOverlay effectId (ctxDrawVideo (applyDynamicFilter
      (ctxClear (ctxMirror (ctxSave c))))))
  else c

/-- The statements of `takeScreenshot` that touch the context, the data
URL, or the link, in source order.  There is no try/finally around
them: an exception thrown at any step abandons the remaining steps. -/
inductive SStep where
  | save
  | clear
  | dynFilter
  | drawVideo
  | overlay
  | encodeURL
  | restoreStep
  | clickLink
deriving DecidableEq

/-- State threaded through `takeScreenshot`: the context, the `href`
assigned from `canvas.toDataURL` (recorded as the encoded bitmap), and
whether the download link was clicked. -/
structure ScreenshotRun where
  ctx : Ctx
  href : Option Bitmap
  clicked : Bool
deriving DecidableEq

/-- Semantics of one `takeScreenshot` statement. -/
def sstep (effectId : String) (r : ScreenshotRun) : SStep → ScreenshotRun
  | .save => { r with ctx := ctxSave r.ctx }
  | .clear => { r with ctx := ctxClear r.ctx }
  | .dynFilter => { r with ctx := applyDynamicFilter r.ctx }
  | .drawVideo => { r with ctx := ctxDrawVideo r.ctx }
  | .overlay => { r with ctx := ctxOverlay effectId r.ctx }
  | .encodeURL => { r with href := some r.ctx.bitmap }
  | .restoreStep => { r with ctx := ctxRestore r.ctx }
  | .clickLink => { r with clicked := true }

/-- The statement list of `takeScreenshot`, in source order. -/
def screenshotSteps : List SStep :=
  [.save, .clear, .dynFilter, .drawVideo, .overlay, .encodeURL, .restoreStep, .clickLink]

/-- Run a list of `takeScreenshot` statements. -/
def runSteps (effectId : String) (steps : List SStep) (r : ScreenshotRun) : ScreenshotRun :=
  steps.foldl (sstep effectId) r

/-- `takeScreenshot()`: the full statement list run on the live context
(`currentFilter.id` passed as `effectId`). -/
def takeScreenshot (effectId : String) (c : Ctx) : ScreenshotRun :=
  runSteps effectId screenshotSteps ⟨c, none, false⟩

/-- The live context as the render loop leaves it between ticks:
identity transform (un-mirrored), empty save stack, the mirrored styled
frame on screen. -/
def liveCtx : Ctx := ⟨false, [], Bitmap.styled true "self", "none"⟩

/-- A recorder state mid-recording (a chunked session in flight). -/
def busyRecState : RecordingState :=
  ⟨true, [3, 1, 4], some ⟨"video/webm", MRecState.recording⟩,
    true, true, true, true, true, none⟩

/-- A recorder state at rest, as after page load. -/
def idleRecState : RecordingState :=
  ⟨false, [], none, false, false, false, false, false, none⟩

/-- A recorder state in the finalizing window, reached by the source's
own flow: a session was started (MP4 accepted), produced two chunks,
and the 5-second timer's `stopRecording` has run — but the recorder's
`onstop` event (`handleRecordingStop`) has not fired yet, so the
session's chunks are still awaiting delivery (`delivered` is `none`)
while `isRecording` is already false and the controls are re-enabled. -/
def finalizingRecState : RecordingState :=
  stopRecording (dataAvailable 7 (dataAvailable 5
    (startRecording (fun _ => true) idleRecState).1))

/-- A 3-by-3 buffer whose corner pixel is visibly non-black. -/
def animaCexBuf : PixelBuffer :=
  ⟨3, 3, [⟨1, 2, 3, 4⟩, ⟨9, 9, 9, 255⟩, ⟨9, 9, 9, 255⟩,
    ⟨9, 9, 9, 255⟩, ⟨9, 9, 9, 255⟩, ⟨9, 9, 9, 255⟩,
    ⟨9, 9, 9, 255⟩, ⟨9, 9, 9, 255⟩, ⟨9, 9, 9, 255⟩]⟩

/-- A 3-by-3 buffer of one uniform colour. -/
def uniBuf3 : PixelBuffer :=
  ⟨3, 3, List.replicate 9 ⟨10, 20, 30, 255⟩⟩

/-- A single pixel of luma exactly 56. -/
def twBuf : PixelBuffer := ⟨1, 1, [⟨56, 56, 56, 7⟩]⟩

/-- A small two-pixel buffer for the inversion round trip. -/
def invBuf : PixelBuffer := ⟨2, 1, [⟨5, 250, 100, 42⟩, ⟨0, 255, 7, 9⟩]⟩

/-- A transparent constant paint, standing in for a rasterised gradient
in concrete instantiations. -/
def clearPaint : ℕ → ℕ → Paint := fun _ _ => ⟨0, 0, 0, 0⟩

/-- The stream of final-draw samples used in the concrete spin run:
always index 1 (`persona`). -/
def spinStream1 : ℕ → Fin archetypes.length := fun _ => ⟨1, by decide⟩

/-- The clamped byte store never produces a value above 255. -/
lemma uint8Clamp_le_255 (q : ℚ) : uint8Clamp q ≤ 255 := by
  unfold uint8Clamp
  split
  · omega
  · split
    · omega
    · rename_i h0 h255
      have hq : q < 255 := lt_of_not_le h255
      have hfloor : (⌊q⌋ : ℤ) ≤ 254 := by
        have : (⌊q⌋ : ℚ) ≤ q := Int.floor_le q
        have : (⌊q⌋ : ℚ) < 255 := lt_of_le_of_lt this hq
        exact_mod_cast Int.lt_add_one_iff.mp (by exact_mod_cast this)
      have hr : roundTiesEven q ≤ ⌊q⌋ + 1 := by
        unfold roundTiesEven
        split
        · omega
        · split
          · omega
          · split <;> omega
      have : roundTiesEven q ≤ 255 := by omega
      omega

/-- Every pixel produced by a compositing blend is byte-valued. -/
lemma compOp_valid (m : BlendMode) (s : Paint) (d : RGBA) : (compOp m s d).Valid := by
  cases m <;>
    refine ⟨?_, ?_, ?_, ?_⟩ <;>
    simp only [compOp, RGBA.Valid] <;>
    first
      | exact uint8Clamp_le_255 _
      | (split <;> first | omega | exact uint8Clamp_le_255 _)

/-- In-bounds `getD` of a mapped list. -/
lemma getD_map_lt {α β : Type} (f : α → β) :
    ∀ (l : List α) (j : ℕ), j < l.length →
      ∀ (dα : α) (dβ : β), (l.map f).getD j dβ = f (l.getD j dα)
  | [], j, h => by simp at h
  | p :: rest, 0, _ => by simp
  | p :: rest, j + 1, h => by
      intro dα dβ
      simpa using getD_map_lt f rest j (by simpa using Nat.lt_of_succ_lt_succ h) dα dβ

/-- In-bounds `getD` of `List.range`. -/
lemma getD_range_lt : ∀ (n j : ℕ), j < n → ∀ d, (List.range n).getD j d = j := by
  intro n j h d
  rw [List.getD_eq_getElem?_getD, List.getElem?_range h]
  rfl

/-- In-bounds `getD` of a function mapped over `List.range`. -/
lemma getD_range_map_lt {β : Type} (g : ℕ → β) (n j : ℕ) (h : j < n) (d : β) :
    ((List.range n).map g).getD j d = g j := by
  rw [getD_map_lt g (List.range n) j (by simpa using h) 0 d, getD_range_lt n j h 0]

/-- An in-bounds `getD` is a member of the list. -/
lemma getD_mem_of_lt {α : Type} (l : List α) (j : ℕ) (h : j < l.length) (d : α) :
    l.getD j d ∈ l := by
  rw [List.getD_eq_getElem?_getD, List.getElem?_eq_getElem h]
  exact List.getElem_mem h

/-- `mapIdxP` preserves length. -/
lemma mapIdxP_length (f : ℕ → RGBA → RGBA) :
    ∀ (i : ℕ) (l : List RGBA), (mapIdxP f i l).length = l.length
  | _, [] => rfl
  | i, p :: rest => by simpa [mapIdxP] using mapIdxP_length f (i + 1) rest

/-- Every element of `mapIdxP f i l` is `f j p` for some `p ∈ l`. -/
lemma mapIdxP_mem (f : ℕ → RGBA → RGBA) :
    ∀ (i : ℕ) (l : List RGBA) (q : RGBA), q ∈ mapIdxP f i l →
      ∃ j p, p ∈ l ∧ q = f j p
  | _, [], q => by intro h; simp [mapIdxP] at h
  | i, p :: rest, q => by
      intro h
      simp only [mapIdxP, List.mem_cons] at h
      rcases h with h | h
      · exact ⟨i, p, List.mem_cons_self p rest, h⟩
      · obtain ⟨j, p', hp', hq⟩ := mapIdxP_mem f (i + 1) rest q h
        exact ⟨j, p', List.mem_cons_of_mem p hp', hq⟩

/-- A compositing pass keeps the dimensions and well-formedness of the
buffer. -/
lemma blendRegion_WF (m : BlendMode) (inR : ℕ → ℕ → Bool) (src : ℕ → ℕ → Paint)
    (buf : PixelBuffer) (hWF : buf.WF) :
    (blendRegion m inR src buf).width = buf.width ∧
    (blendRegion m inR src buf).height = buf.height ∧
    (blendRegion m inR src buf).WF := by
  obtain ⟨hlen, hval⟩ := hWF
  refine ⟨rfl, rfl, ?_, ?_⟩
  · simpa [blendRegion, mapIdxP_length] using hlen
  · intro q hq
    obtain ⟨j, p, hp, hqe⟩ := mapIdxP_mem _ 0 buf.data q hq
    subst hqe
    by_cases hR : inR (j % buf.width) (j / buf.width) = true
    · simp only [hR, if_true]
      exact compOp_valid _ _ _
    · simp only [hR]
      simpa using hval p hp

/-- The inversion stage keeps dimensions and well-formedness. -/
lemma personaInvert_WF (buf : PixelBuffer) (hWF : buf.WF) :
    (personaInvert buf).width = buf.width ∧
    (personaInvert buf).height = buf.height ∧
    (personaInvert buf).WF := by
  obtain ⟨hlen, hval⟩ := hWF
  refine ⟨rfl, rfl, ?_, ?_⟩
  · simpa [personaInvert] using hlen
  · intro q hq
    simp only [personaInvert, List.mem_map] at hq
    obtain ⟨p, hp, hqe⟩ := hq
    subst hqe
    have hv := hval p hp
    simp only [invertPixel, RGBA.Valid]
    exact ⟨by omega, by omega, by omega, hv.2.2.2⟩

/-- Visual spin ticks never write `currentFilter`. -/
lemma runSpinTicks_currentFilter (ds : List (Fin archetypes.length)) :
    ∀ st : SelectorState, (runSpinTicks ds st).currentFilter = st.currentFilter := by
  induction ds with
  | nil => intro st; rfl
  | cons d rest ih =>
      intro st
      simpa [runSpinTicks, spinTickVisual] using ih (spinTickVisual d st)

/-- Looking a catalog entry up by its own id finds exactly that entry
(the five ids are pairwise distinct). -/
lemma archetypes_find_self (k : Fin archetypes.length) :
    archetypes.find? (fun a => a.id == (archAt k).id) = some (archAt k) := by
  revert k; decide

/-- The clamped store of `56 * 1.8 = 100.8` is 101 (fraction above one
half rounds up). -/
lemma uint8Clamp_56_18 : uint8Clamp ((56 : ℚ) * 1.8) = 101 := by
  have hf : ⌊(56 : ℚ) * 1.8⌋ = 100 := by
    rw [Int.floor_eq_iff]
    norm_num
  unfold uint8Clamp roundTiesEven
  rw [hf, if_neg (by norm_num), if_neg (by norm_num), if_neg (by norm_num),
    if_pos (by norm_num)]
  rfl

/-- Luma of the uniform grey 56 pixel is exactly 56. -/
lemma luma56 : lumaQ ⟨56, 56, 56, 7⟩ = 56 := by
  unfold lumaQ; norm_num

/-- A draw passing the final-tick exit condition differs in id from the
current selection. -/
lemma spinPred_ne (st' : SelectorState) (s : ℕ → Fin archetypes.length) (n : ℕ)
    (hp : spinPred st' s n) (a : Archetype) (hcur : st'.currentFilter = some a) :
    (archAt (s n)).id ≠ a.id := by
  intro he
  apply hp
  rw [hcur, he]
  rfl

/-- A flat row-major index of an in-range coordinate pair is in
range. -/
lemma idx_lt (w h x y : ℕ) (hx : x < w) (hy : y < h) : x + y * w < w * h := by
  calc x + y * w < w + y * w := by omega
    _ = (y + 1) * w := by ring
    _ ≤ h * w := Nat.mul_le_mul_right w (by omega)
    _ = w * h := Nat.mul_comm h w

/-- Column recovered from a flat row-major index. -/
lemma flat_mod (w x y : ℕ) (hx : x < w) : (x + y * w) % w = x := by
  rw [Nat.add_mul_mod_self_right, Nat.mod_eq_of_lt hx]

/-- Row recovered from a flat row-major index. -/
lemma flat_div (w x y : ℕ) (hx : x < w) : (x + y * w) / w = y := by
  rw [Nat.add_mul_div_right _ _ (by omega : 0 < w), Nat.div_eq_of_lt hx]
  omega

/-- C1 counterexample: selecting the unknown id `"ego"` from the initial
state stores `undefined` into `currentFilter` (so `currentId` no longer
references any catalog entry) and raises a `TypeError` rather than a
designed `UnknownEffect` failure — refuting the claimed invariant that
`currentId` references an existing definition after every mutation. -/
theorem applyFilter_unknown_id_cex :
    (applyFilter "ego" initSelectorState).1.currentFilter = none ∧
    (applyFilter "ego" initSelectorState).2 = some JSError.typeError ∧
    ¬ ∃ a ∈ archetypes, (applyFilter "ego" initSelectorState).1.currentFilter = some a := by
  decide

/-- C1 (amended): `applyFilter` with a catalog id sets `currentFilter`
to that entry and updates the observer surfaces; with an unknown id it
first overwrites `currentFilter` with the failed lookup (`undefined`)
and then fails with a `TypeError` — there is no `UnknownEffect`
validation and the validity invariant is not enforced. -/
theorem applyFilter_validation_amended (filterId : String) (st : SelectorState) :
    (∀ a, archetypes.find? (fun x => x.id == filterId) = some a →
      applyFilter filterId st =
        ({ st with
            currentFilter := some a,
            canvasClass := a.id,
            descriptionHTML := "<h3>" ++ a.name ++ "</h3><p>" ++ a.description ++ "</p>",
            descriptionVisible := true,
            activeFilterId := some filterId }, none)) ∧
    (archetypes.find? (fun x => x.id == filterId) = none →
      applyFilter filterId st =
        ({ st with currentFilter := none }, some JSError.typeError)) := by
  constructor
  · intro a ha
    simp [applyFilter, ha]
  · intro ha
    simp [applyFilter, ha]

/-- C1 witness: the amended behaviour at the concrete ids `"persona"`
(found) and `"ego"` (not found). -/
theorem applyFilter_validation_amended_witness :
    (applyFilter "persona" initSelectorState).1.currentFilter =
      some (archetypes.getD 1 ⟨"", "", "", ""⟩) ∧
    (applyFilter "ego" initSelectorState) =
      ({ initSelectorState with currentFilter := none }, some JSError.typeError) := by
  refine ⟨?_, (applyFilter_validation_amended "ego" initSelectorState).2 (by decide)⟩
  rw [(applyFilter_validation_amended "persona" initSelectorState).1
    (archetypes.getD 1 ⟨"", "", "", ""⟩) (by decide)]

/-- C2 counterexample: in the finalizing window (stop requested, the
session's two chunks still awaiting their `onstop` delivery — a state ≠
Idle) `isRecording` has already been cleared, so a second
`startRecording` is not rejected with `AlreadyRecording`: it is accepted
and resets the pending session's chunk sequence to empty. -/
theorem startRecording_finalizing_cex :
    finalizingRecState.recordedChunks = [5, 7] ∧
    finalizingRecState.delivered = none ∧
    finalizingRecState.isRecording = false ∧
    (startRecording (fun _ => true) finalizingRecState).2 ≠ StartOutcome.alreadyRecording ∧
    (startRecording (fun _ => true) finalizingRecState).1.recordedChunks = [] := by
  decide

/-- C2 (amended): while `isRecording` is true (the Recording state) a
second `startRecording` always returns through the guard with the
`AlreadyRecording` outcome and the whole state — chunks included —
untouched.  But the guard checks only the `isRecording` flag, which
`stopRecording` clears when finalization is requested, before the
asynchronous delivery completes: whenever `isRecording` is false —
including the Finalizing window of a not-yet-delivered session — a
start is accepted (never `AlreadyRecording`) and resets
`recordedChunks` to empty. -/
theorem startRecording_alreadyRecording_amended (supports : String → Bool)
    (st : RecordingState) :
    (st.isRecording = true →
      startRecording supports st = (st, StartOutcome.alreadyRecording) ∧
      (startRecording supports st).1.recordedChunks = st.recordedChunks) ∧
    (st.isRecording = false →
      (startRecording supports st).2 ≠ StartOutcome.alreadyRecording ∧
      (startRecording supports st).1.recordedChunks = []) := by
  constructor
  · intro h
    refine ⟨?_, ?_⟩ <;> simp [startRecording, h]
  · intro h
    cases hm : mimeTypes.find? supports with
    | none =>
        refine ⟨?_, ?_⟩
        · simp [startRecording, h, hm]
        · cases hrec : st.mediaRecorder with
          | none => simp [startRecording, stopRecording, h, hm, hrec]
          | some r =>
              by_cases hs : r.mstate = MRecState.recording <;>
                simp [startRecording, stopRecording, h, hm, hrec, hs]
    | some m =>
        refine ⟨?_, ?_⟩ <;> simp [startRecording, h, hm]

/-- C2 witness: the guarded rejection on a concrete in-flight session,
and the accepted chunk-resetting start on the concrete finalizing
state. -/
theorem startRecording_alreadyRecording_amended_witness :
    busyRecState.isRecording = true ∧
    startRecording (fun _ => true) busyRecState = (busyRecState, StartOutcome.alreadyRecording) ∧
    (startRecording (fun _ => true) busyRecState).1.recordedChunks = [3, 1, 4] ∧
    finalizingRecState.isRecording = false ∧
    (startRecording (fun _ => true) finalizingRecState).1.recordedChunks = [] :=
  ⟨rfl,
    ((startRecording_alreadyRecording_amended (fun _ => true) busyRecState).1 rfl).1,
    ((startRecording_alreadyRecording_amended (fun _ => true) busyRecState).1 rfl).2,
    rfl,
    ((startRecording_alreadyRecording_amended (fun _ => true) finalizingRecState).2 rfl).2⟩

/-- C10: from idle, `startRecording` probes the fixed ordered MIME-type
preference list (MP4 first, then VP9/VP8 WebM, then generic WebM) and
starts with the first type the platform `supports` predicate accepts;
when none is accepted it ends with the `NoSupportedProfile` outcome,
every control flag unlocked, `isRecording` back to false, and no
deliverable produced. -/
theorem startRecording_profile_negotiation (supports : String → Bool)
    (st : RecordingState) (h : st.isRecording = false) :
    mimeTypes = ["video/mp4; codecs=\"avc1.42E01E\"", "video/webm; codecs=vp9",
      "video/webm; codecs=vp8", "video/webm"] ∧
    (∀ m, mimeTypes.find? supports = some m →
      (startRecording supports st).2 = StartOutcome.started m ∧
      supports m = true ∧ m ∈ mimeTypes ∧
      (startRecording supports st).1.mediaRecorder = some ⟨m, MRecState.recording⟩) ∧
    (mimeTypes.find? supports = none →
      (startRecording supports st).2 = StartOutcome.noSupportedProfile ∧
      (startRecording supports st).1.isRecording = false ∧
      (startRecording supports st).1.recordBtnDisabled = false ∧
      (startRecording supports st).1.screenshotBtnDisabled = false ∧
      (startRecording supports st).1.randomBtnDisabledR = false ∧
      (startRecording supports st).1.pointerEventsLockedR = false ∧
      (startRecording supports st).1.recordBtnRecordingClass = false ∧
      (startRecording supports st).1.delivered = st.delivered) := by
  refine ⟨rfl, ?_, ?_⟩
  · intro m hm
    refine ⟨?_, List.find?_some hm, List.mem_of_find?_eq_some hm, ?_⟩ <;>
      simp [startRecording, h, hm]
  · intro hm
    cases hrec : st.mediaRecorder with
    | none => simp [startRecording, stopRecording, h, hm, hrec]
    | some r =>
        by_cases hs : r.mstate = MRecState.recording <;>
          simp [startRecording, stopRecording, h, hm, hrec, hs]

/-- C10 witness: negotiation on a platform supporting nothing, from the
concrete idle state. -/
theorem startRecording_profile_negotiation_witness :
    idleRecState.isRecording = false ∧
    mimeTypes.find? (fun _ => false) = none ∧
    (startRecording (fun _ => false) idleRecState).2 = StartOutcome.noSupportedProfile ∧
    (startRecording (fun _ => false) idleRecState).1.isRecording = false ∧
    (startRecording (fun _ => false) idleRecState).1.delivered = none := by
  have h := (startRecording_profile_negotiation (fun _ => false) idleRecState rfl).2.2 rfl
  exact ⟨rfl, rfl, h.1, h.2.1, h.2.2.2.2.2.2.2⟩

/-- C3 counterexample: on the live context left by a render tick (the
mirrored styled frame on screen), `takeScreenshot` changes the displayed
bitmap — it redraws into the very canvas the render loop shows, not into
a scratch buffer, so the live mirrored buffer is disturbed (left
un-mirrored until the next tick repaints it). -/
theorem takeScreenshot_live_buffer_cex :
    liveCtx.bitmap = Bitmap.styled true "self" ∧
    (takeScreenshot "self" liveCtx).ctx.bitmap = Bitmap.styled false "self" ∧
    (takeScreenshot "self" liveCtx).ctx.bitmap ≠ liveCtx.bitmap := by
  decide

/-- C3 (amended): `takeScreenshot` reruns the clear / pre-draw /
video-draw / overlay pipeline of the render loop directly on the live
canvas under the current (un-mirrored, when invoked between ticks)
transform and encodes that frame; the surrounding `save`/`restore` pair
restores the transform on the normal path only — aborting after the
`save` but before the `restore` (as a thrown encoding error would)
leaves the saved state unpopped — and the live bitmap is overwritten
until the next render tick redraws the mirrored frame. -/
theorem takeScreenshot_amended (c : Ctx) (effectId : String) :
    (takeScreenshot effectId c).ctx.mirrored = c.mirrored ∧
    (takeScreenshot effectId c).ctx.saveStack = c.saveStack ∧
    (takeScreenshot effectId c).ctx.bitmap = Bitmap.styled c.mirrored effectId ∧
    (takeScreenshot effectId c).href = some (Bitmap.styled c.mirrored effectId) ∧
    (c.mirrored = false →
      (takeScreenshot effectId c).ctx.bitmap = Bitmap.styled false effectId) ∧
    (runSteps effectId (screenshotSteps.take 6) ⟨c, none, false⟩).ctx.saveStack
      = c.mirrored :: c.saveStack ∧
    (renderTick true effectId (takeScreenshot effectId c).ctx).bitmap
      = Bitmap.styled (!c.mirrored) effectId ∧
    (renderTick true effectId (takeScreenshot effectId c).ctx).mirrored = c.mirrored := by
  refine ⟨rfl, rfl, rfl, rfl, ?_, rfl, rfl, rfl⟩
  intro hm
  simp [takeScreenshot, runSteps, screenshotSteps, sstep, ctxSave, ctxClear,
    applyDynamicFilter, ctxDrawVideo, ctxOverlay, ctxRestore, hm]

/-- C3 witness: the amended behaviour at the concrete live context. -/
theorem takeScreenshot_amended_witness :
    liveCtx.mirrored = false ∧
    (takeScreenshot "self" liveCtx).ctx.bitmap = Bitmap.styled false "self" ∧
    (takeScreenshot "self" liveCtx).ctx.saveStack = liveCtx.saveStack ∧
    (runSteps "self" (screenshotSteps.take 6) ⟨liveCtx, none, false⟩).ctx.saveStack
      = false :: liveCtx.saveStack :=
  ⟨rfl, (takeScreenshot_amended liveCtx "self").2.2.2.2.1 rfl,
    (takeScreenshot_amended liveCtx "self").2.1,
    (takeScreenshot_amended liveCtx "self").2.2.2.2.2.1⟩

/-- C5: the trickster pass, pixel by pixel: luma at most 55 (including
exactly 55) is crushed to opaque-channel black, luma above 55 maps to
`luma * 1.8` clamp-stored on the red channel with green and blue zero,
and alpha is never written; at luma exactly 56 the stored red value is
the clamped store of `56 * 1.8 = 100.8`, namely 101. -/
theorem trickster_per_pixel_rule (buf : PixelBuffer) (j : ℕ) (hj : j < buf.data.length) :
    (lumaQ (buf.data.getD j px0) ≤ 55 →
      (applyTricksterEffect buf).data.getD j px0 = ⟨0, 0, 0, (buf.data.getD j px0).a⟩) ∧
    (55 < lumaQ (buf.data.getD j px0) →
      (applyTricksterEffect buf).data.getD j px0 =
        ⟨uint8Clamp (lumaQ (buf.data.getD j px0) * 1.8), 0, 0, (buf.data.getD j px0).a⟩) ∧
    ((applyTricksterEffect buf).data.getD j px0).a = (buf.data.getD j px0).a ∧
    (lumaQ (buf.data.getD j px0) = 55 →
      (applyTricksterEffect buf).data.getD j px0 = ⟨0, 0, 0, (buf.data.getD j px0).a⟩) ∧
    (lumaQ (buf.data.getD j px0) = 56 →
      (applyTricksterEffect buf).data.getD j px0 = ⟨101, 0, 0, (buf.data.getD j px0).a⟩ ∧
      uint8Clamp ((56 : ℚ) * 1.8) = 101) := by
  have hmap : (applyTricksterEffect buf).data.getD j px0
      = tricksterPixel (buf.data.getD j px0) := by
    unfold applyTricksterEffect
    exact getD_map_lt tricksterPixel buf.data j hj px0 px0
  have h56 : uint8Clamp ((56 : ℚ) * 1.8) = 101 := uint8Clamp_56_18
  refine ⟨?_, ?_, ?_, ?_, ?_⟩
  · intro h
    rw [hmap]; unfold tricksterPixel; rw [if_pos h]
  · intro h
    rw [hmap]; unfold tricksterPixel; rw [if_neg (not_le.mpr h)]
  · rw [hmap]; unfold tricksterPixel; split <;> rfl
  · intro h
    rw [hmap]; unfold tricksterPixel; rw [if_pos (le_of_eq h)]
  · intro h
    refine ⟨?_, h56⟩
    rw [hmap]; unfold tricksterPixel
    rw [if_neg (by rw [h]; norm_num), h, h56]

/-- C5 witness: the one-pixel buffer of luma exactly 56. -/
theorem trickster_per_pixel_rule_witness :
    lumaQ ⟨56, 56, 56, 7⟩ = 56 ∧
    (applyTricksterEffect twBuf).data.getD 0 px0 = ⟨101, 0, 0, 7⟩ := by
  have h := (trickster_per_pixel_rule twBuf 0 (by decide)).2.2.2.2 luma56
  exact ⟨luma56, h.1⟩

/-- C6: the persona inversion stage maps every pixel's R, G and B to
`255` minus their value while leaving alpha untouched, and on a
byte-valued buffer the stage is an involution: running it twice restores
the buffer exactly. -/
theorem persona_inversion_involution (buf : PixelBuffer) (hWF : buf.WF) :
    personaInvert (personaInvert buf) = buf ∧
    (∀ j, j < buf.data.length →
      (personaInvert buf).data.getD j px0 =
        ⟨255 - (buf.data.getD j px0).r, 255 - (buf.data.getD j px0).g,
          255 - (buf.data.getD j px0).b, (buf.data.getD j px0).a⟩) := by
  obtain ⟨hlen, hval⟩ := hWF
  constructor
  · have hdata : (buf.data.map invertPixel).map invertPixel = buf.data := by
      rw [List.map_map]
      have hid : ∀ p ∈ buf.data, (invertPixel ∘ invertPixel) p = id p := by
        intro p hp
        have hv := hval p hp
        cases p with
        | mk r g b a =>
          simp only [RGBA.Valid] at hv
          simp only [invertPixel, Function.comp_apply, id_eq, RGBA.mk.injEq]
          exact ⟨by omega, by omega, by omega, trivial⟩
      rw [List.map_congr_left hid, List.map_id]
    cases buf
    simp only [personaInvert] at hdata ⊢
    rw [hdata]
  · intro j hj
    rw [show (personaInvert buf).data = buf.data.map invertPixel from rfl,
      getD_map_lt invertPixel buf.data j hj px0 px0]
    rfl

/-- C6 witness: the round trip on a concrete two-pixel buffer. -/
theorem persona_inversion_involution_witness :
    invBuf.WF ∧ personaInvert (personaInvert invBuf) = invBuf ∧
    (personaInvert invBuf).data.getD 0 px0 = ⟨250, 5, 155, 42⟩ := by
  have h := persona_inversion_involution invBuf (by decide)
  exact ⟨by decide, h.1, by rw [h.2 0 (by decide)]; rfl⟩

/-- C4: each of the five effects keeps the buffer's width and height
and produces only byte-valued channels on any well-formed buffer — the
per-pixel kernels route every arithmetic store through the clamped byte
conversion, and the compositing passes (for arbitrary rasterised
gradient/glitch paints and regions) do the same. -/
theorem effects_preserve_dims_and_range (buf : PixelBuffer) (hWF : buf.WF) :
    (∀ grad, (applySelfEffect grad buf).width = buf.width ∧
      (applySelfEffect grad buf).height = buf.height ∧ (applySelfEffect grad buf).WF) ∧
    (∀ grad, (applyPersonaEffect grad buf).width = buf.width ∧
      (applyPersonaEffect grad buf).height = buf.height ∧ (applyPersonaEffect grad buf).WF) ∧
    (∀ vign sliceOn r1 r2 s1 s2 splitOn t1 t2,
      (applyShadowEffect vign sliceOn r1 r2 s1 s2 splitOn t1 t2 buf).width = buf.width ∧
      (applyShadowEffect vign sliceOn r1 r2 s1 s2 splitOn t1 t2 buf).height = buf.height ∧
      (applyShadowEffect vign sliceOn r1 r2 s1 s2 splitOn t1 t2 buf).WF) ∧
    ((applyAnimaEffect buf).width = buf.width ∧
      (applyAnimaEffect buf).height = buf.height ∧ (applyAnimaEffect buf).WF) ∧
    ((applyTricksterEffect buf).width = buf.width ∧
      (applyTricksterEffect buf).height = buf.height ∧ (applyTricksterEffect buf).WF) := by
  refine ⟨?_, ?_, ?_, ?_, ?_⟩
  · intro grad
    exact blendRegion_WF BlendMode.sourceOver fullRegion grad buf hWF
  · intro grad
    have h1 := personaInvert_WF buf hWF
    have h2 := blendRegion_WF BlendMode.sourceOver fullRegion grad (personaInvert buf) h1.2.2
    exact ⟨h2.1.trans h1.1, h2.2.1.trans h1.2.1, h2.2.2⟩
  · intro vign sliceOn r1 r2 s1 s2 splitOn t1 t2
    cases sliceOn <;> cases splitOn <;> refine ⟨rfl, rfl, ?_⟩
    · exact (blendRegion_WF _ _ _ _ hWF).2.2
    · exact (blendRegion_WF _ _ _ _
        (blendRegion_WF _ _ _ _ (blendRegion_WF _ _ _ _ hWF).2.2).2.2).2.2
    · exact (blendRegion_WF _ _ _ _
        (blendRegion_WF _ _ _ _ (blendRegion_WF _ _ _ _ hWF).2.2).2.2).2.2
    · exact (blendRegion_WF _ _ _ _ (blendRegion_WF _ _ _ _
        (blendRegion_WF _ _ _ _
          (blendRegion_WF _ _ _ _ (blendRegion_WF _ _ _ _ hWF).2.2).2.2).2.2).2.2).2.2
  · refine ⟨rfl, rfl, ?_, ?_⟩
    · simp [applyAnimaEffect]
    · intro q hq
      simp only [applyAnimaEffect, List.mem_map] at hq
      obtain ⟨i, _, hqe⟩ := hq
      subst hqe
      unfold animaPixel
      split
      · split <;> decide
      · decide
  · refine ⟨rfl, rfl, ?_, ?_⟩
    · simpa [applyTricksterEffect] using hWF.1
    · intro q hq
      simp only [applyTricksterEffect, List.mem_map] at hq
      obtain ⟨p, hp, hqe⟩ := hq
      subst hqe
      have hv := hWF.2 p hp
      unfold tricksterPixel
      split
      · simp only [RGBA.Valid]
        exact ⟨by omega, by omega, by omega, hv.2.2.2⟩
      · simp only [RGBA.Valid]
        exact ⟨uint8Clamp_le_255 _, by omega, by omega, hv.2.2.2⟩

/-- C4 witness: the preserved well-formedness at a concrete uniform
3-by-3 buffer (and a concrete transparent paint for the gradient
effect). -/
theorem effects_preserve_dims_and_range_witness :
    uniBuf3.WF ∧
    (applySelfEffect clearPaint uniBuf3).WF ∧
    (applyAnimaEffect uniBuf3).WF ∧
    (applyTricksterEffect uniBuf3).WF := by
  have h := effects_preserve_dims_and_range uniBuf3 (by decide)
  exact ⟨by decide, (h.1 clearPaint).2.2, h.2.2.2.1.2.2, h.2.2.2.2.2.2⟩

/-- C7: at every interior pixel the anima pass emits opaque white when
the absolute Laplacian `4*center - left - right - top - bottom` of the
luma grid exceeds 20 and opaque dark grey `(20,20,20,255)` otherwise;
consequently on a buffer of one uniform colour every interior pixel
comes out dark grey. -/
theorem anima_interior_rule (buf : PixelBuffer) (x y : ℕ)
    (hx1 : 1 ≤ x) (hx2 : x + 1 < buf.width) (hy1 : 1 ≤ y) (hy2 : y + 1 < buf.height) :
    ((applyAnimaEffect buf).data.getD (x + y * buf.width) px0 =
      if 20 < |animaLap buf x y| then ⟨255, 255, 255, 255⟩ else ⟨20, 20, 20, 255⟩) ∧
    (buf.WF → (∀ p ∈ buf.data, p = buf.data.getD 0 px0) →
      (applyAnimaEffect buf).data.getD (x + y * buf.width) px0 = ⟨20, 20, 20, 255⟩) := by
  have hx : x < buf.width := by omega
  have hy : y < buf.height := by omega
  have hi : x + y * buf.width < buf.width * buf.height := idx_lt _ _ _ _ hx hy
  have hrule : (applyAnimaEffect buf).data.getD (x + y * buf.width) px0 =
      if 20 < |animaLap buf x y| then ⟨255, 255, 255, 255⟩ else ⟨20, 20, 20, 255⟩ := by
    show ((List.range (buf.width * buf.height)).map
      (animaPixel (animaGray buf) buf.width buf.height)).getD (x + y * buf.width) px0 = _
    rw [getD_range_map_lt (animaPixel (animaGray buf) buf.width buf.height)
      (buf.width * buf.height) (x + y * buf.width) hi px0]
    unfold animaPixel
    rw [flat_mod _ _ _ hx, flat_div _ _ _ hx]
    rw [if_pos ⟨hx1, by omega, hy1, by omega⟩]
    unfold animaLap
    rfl
  refine ⟨hrule, ?_⟩
  intro hWF huni
  obtain ⟨hlen, _⟩ := hWF
  have hlap : animaLap buf x y = 0 := by
    have hb0 : x + y * buf.width < buf.data.length := by rw [hlen]; exact hi
    have hb1 : x + y * buf.width - 1 < buf.data.length := by omega
    have hb2 : x + y * buf.width + 1 < buf.data.length := by
      rw [hlen]
      have h2 : (x + 1) + y * buf.width < buf.width * buf.height :=
        idx_lt _ _ _ _ (by omega) hy
      omega
    have hb3 : x + y * buf.width - buf.width < buf.data.length := by omega
    have hb4 : x + y * buf.width + buf.width < buf.data.length := by
      rw [hlen]
      have h4 : x + (y + 1) * buf.width < buf.width * buf.height :=
        idx_lt _ _ _ _ hx (by omega)
      have h5 : (y + 1) * buf.width = y * buf.width + buf.width := by ring
      omega
    unfold animaLap animaGray
    rw [getD_map_lt (fun p => uint8Clamp (lumaQ p)) buf.data (x + y * buf.width) hb0 px0 0,
      getD_map_lt (fun p => uint8Clamp (lumaQ p)) buf.data (x + y * buf.width - 1) hb1 px0 0,
      getD_map_lt (fun p => uint8Clamp (lumaQ p)) buf.data (x + y * buf.width + 1) hb2 px0 0,
      getD_map_lt (fun p => uint8Clamp (lumaQ p)) buf.data
        (x + y * buf.width - buf.width) hb3 px0 0,
      getD_map_lt (fun p => uint8Clamp (lumaQ p)) buf.data
        (x + y * buf.width + buf.width) hb4 px0 0]
    rw [huni _ (getD_mem_of_lt buf.data _ hb0 px0), huni _ (getD_mem_of_lt buf.data _ hb1 px0),
      huni _ (getD_mem_of_lt buf.data _ hb2 px0), huni _ (getD_mem_of_lt buf.data _ hb3 px0),
      huni _ (getD_mem_of_lt buf.data _ hb4 px0)]
    ring
  rw [hrule, hlap]
  simp

/-- C7 witness: the centre pixel of the concrete uniform 3-by-3 buffer
resolves to dark grey. -/
theorem anima_interior_rule_witness :
    uniBuf3.WF ∧
    (applyAnimaEffect uniBuf3).data.getD (1 + 1 * uniBuf3.width) px0 = ⟨20, 20, 20, 255⟩ := by
  have h := (anima_interior_rule uniBuf3 1 1 (by decide) (by decide) (by decide)
    (by decide)).2 (by decide) (by decide)
  exact ⟨by decide, h⟩

/-- C8 counterexample: the anima pass writes the whole freshly created
(zero-initialised) output image back over the canvas, so a border pixel
does not keep its prior value: the corner pixel `(1,2,3,4)` of the
concrete buffer becomes transparent black. -/
theorem anima_border_cex :
    animaCexBuf.data.getD 0 px0 = ⟨1, 2, 3, 4⟩ ∧
    (applyAnimaEffect animaCexBuf).data.getD 0 px0 = px0 ∧
    (applyAnimaEffect animaCexBuf).data.getD 0 px0 ≠ animaCexBuf.data.getD 0 px0 := by
  decide

/-- C8 (amended): after the anima pass every 1-pixel-border position
holds transparent black `(0,0,0,0)` — the value `createImageData`
initialised the output to, since only interior pixels are written before
the full output replaces the canvas. -/
theorem anima_border_amended (buf : PixelBuffer) (x y : ℕ)
    (hx : x < buf.width) (hy : y < buf.height)
    (hb : x = 0 ∨ x + 1 = buf.width ∨ y = 0 ∨ y + 1 = buf.height) :
    (applyAnimaEffect buf).data.getD (x + y * buf.width) px0 = px0 := by
  have hi : x + y * buf.width < buf.width * buf.height := idx_lt _ _ _ _ hx hy
  show ((List.range (buf.width * buf.height)).map
    (animaPixel (animaGray buf) buf.width buf.height)).getD (x + y * buf.width) px0 = px0
  rw [getD_range_map_lt (animaPixel (animaGray buf) buf.width buf.height)
    (buf.width * buf.height) (x + y * buf.width) hi px0]
  unfold animaPixel
  rw [flat_mod _ _ _ hx, flat_div _ _ _ hx]
  rw [if_neg (by omega)]

/-- C8 witness: the amended border rule at the concrete left-edge pixel
`(0,1)` of the 3-by-3 buffer. -/
theorem anima_border_amended_witness :
    (0 : ℕ) < animaCexBuf.width ∧
    (applyAnimaEffect animaCexBuf).data.getD (0 + 1 * animaCexBuf.width) px0 = px0 :=
  ⟨by decide, anima_border_amended animaCexBuf 0 1 (by decide) (by decide) (Or.inl rfl)⟩

/-- C9: a spin starting from a valid current selection ends with
`currentFilter` set (through `applyFilter`, which succeeds — no error)
to the first final-loop draw whose id differs from the id current when
spinning began; that final id therefore never equals the starting id,
and no visual tick (any list of them) ever writes `currentFilter`. -/
theorem spin_final_excludes_start (ds : List (Fin archetypes.length))
    (s : ℕ → Fin archetypes.length) (st : SelectorState) (a : Archetype)
    (ha : st.currentFilter = some a)
    (h : ∃ n, spinPred (runSpinTicks ds (lockControls st)) s n) :
    (randomFilterSlotMachine ds s st h).1.currentFilter = some (archAt (s (Nat.find h))) ∧
    (archAt (s (Nat.find h))).id ≠ a.id ∧
    (randomFilterSlotMachine ds s st h).2 = none ∧
    (∀ pre : List (Fin archetypes.length),
      (runSpinTicks pre (lockControls st)).currentFilter = st.currentFilter) := by
  have hticks : (runSpinTicks ds (lockControls st)).currentFilter = st.currentFilter := by
    rw [runSpinTicks_currentFilter]
    rfl
  have hne : (archAt (s (Nat.find h))).id ≠ a.id :=
    spinPred_ne _ s (Nat.find h) (Nat.find_spec h) a (hticks.trans ha)
  have happ := archetypes_find_self (s (Nat.find h))
  refine ⟨?_, hne, ?_, ?_⟩
  · simp [randomFilterSlotMachine, applyFilter, happ]
  · simp [randomFilterSlotMachine, applyFilter, happ]
  · intro pre
    rw [runSpinTicks_currentFilter]
    rfl

/-- C9 witness: the concrete spin with no visual ticks and a final-draw
stream that always samples index 1 (`persona`), starting from the
initial state (current id `self`). -/
theorem spin_final_excludes_start_witness :
    initSelectorState.currentFilter = some (archetypes.getD 0 ⟨"", "", "", ""⟩) ∧
    (∀ hex : ∃ n, spinPred (runSpinTicks [] (lockControls initSelectorState)) spinStream1 n,
      (randomFilterSlotMachine [] spinStream1 initSelectorState hex).1.currentFilter
          = some (archAt (spinStream1 (Nat.find hex))) ∧
      (archAt (spinStream1 (Nat.find hex))).id ≠ "self") ∧
    (∃ n, spinPred (runSpinTicks [] (lockControls initSelectorState)) spinStream1 n) := by
  refine ⟨rfl, ?_, ⟨0, by decide⟩⟩
  intro hex
  have h := spin_final_excludes_start [] spinStream1 initSelectorState
    (archetypes.getD 0 ⟨"", "", "", ""⟩) rfl hex
  exact ⟨h.1, h.2.1⟩

end PsycheOS
